import Mathlib

/-!
Verification development for `github-api-push` (`src/push.js`), a single-pass
command-line utility that uploads local files to the GitHub contents API.

The script is embedded shallowly:

* Pure string manipulation (`parseArgs`'s handling of `--files`,
  `getTrackedFiles`) is translated directly into Lean functions on `String`.
* The process environment, the local git metadata and the local filesystem are
  explicit inputs (`Options`, `GitEnv`, `String → FsEntry`).
* The network is an oracle (`Remote`) giving the JSON shapes the script
  inspects (`message`, `object.sha`, `ref`, `sha`, `content` fields), plus a
  per-file behaviour describing at which call a transport exception, if any,
  is thrown.  Every request issued is recorded in an ordered trace of
  `NetCall` values; the request body of a PUT is recorded verbatim (`PutBody`),
  with the base64 encoding of the file bytes abstracted away (it is a
  bijection and the script never inspects it).
* `process.exit` and falling off the end of `main` are the two terminal
  outcomes (`RunResult.exited` and `RunResult.completed`).
* JavaScript truthiness of the string-or-null values the script tests with
  `||` and `if (!x)` is modelled by `jsTruthy` (`null`/`undefined` and the
  empty string are falsy).
* Console output is not modelled; it is observational only.
-/

/-- Status of a path on the local disk: missing, a directory, or a regular
file with the given bytes (`fs.existsSync` / `fs.statSync().isDirectory()` /
`fs.readFileSync`). -/
inductive FsEntry where
  | absent : FsEntry
  | dir : FsEntry
  | file (content : List Nat) : FsEntry
deriving DecidableEq

/-- JavaScript truthiness of a string-or-nullish value: `null`/`undefined`
and `""` are falsy, every other string is truthy. -/
def jsTruthy : Option String → Bool
  | none => false
  | some s => s != ""

/-- JavaScript `a || b` for two string-or-nullish values. -/
def jsOr (a b : Option String) : Option String :=
  if jsTruthy a then a else b

/-- JavaScript `a || b` where the fallback is a plain string. -/
def jsOrStr (a : Option String) (b : String) : String :=
  if jsTruthy a then a.getD "" else b

/-- Splits a character list on every occurrence of `sep`; like JavaScript
`String.prototype.split` with a one-character separator, the result has one
(possibly empty) group per gap, and splitting the empty string gives one
empty group. -/
def splitOnChar (sep : Char) : List Char → List (List Char)
  | [] => [[]]
  | c :: cs =>
    let r := splitOnChar sep cs
    if c = sep then [] :: r
    else match r with
      | [] => [[c]]
      | g :: gs => (c :: g) :: gs

/-- Removes whitespace from both ends of a character list, like JavaScript
`String.prototype.trim` (restricted to the ASCII whitespace the inputs here
can contain: space, tab, carriage return, newline). -/
def trimChars (l : List Char) : List Char :=
  ((l.dropWhile Char.isWhitespace).reverse.dropWhile Char.isWhitespace).reverse

/-- Whether the second character list is an initial segment of the first,
like JavaScript `String.prototype.startsWith`. -/
def startsWithChars : List Char → List Char → Bool
  | _, [] => true
  | [], _ :: _ => false
  | c :: cs, p :: ps => c = p && startsWithChars cs ps

/-- JavaScript `s.split(sep)` for a one-character separator. -/
def jsSplit (sep : Char) (s : String) : List String :=
  (splitOnChar sep s.data).map (fun l => ⟨l⟩)

/-- JavaScript `s.trim()`. -/
def jsTrim (s : String) : String := ⟨trimChars s.data⟩

/-- JavaScript `s.startsWith(p)`. -/
def jsStartsWith (s p : String) : Bool := startsWithChars s.data p.data

/-- Embeds the `--files` case of `parseArgs` (src/push.js):
`options.files = next ? next.split(',').map(f => f.trim()) : null`.
The input is the following argv entry (or `none` when absent); the guard is
JavaScript truthiness of that entry. -/
def parseFilesOpt (next : Option String) : Option (List String) :=
  match next with
  | none => none
  | some s => if s = "" then none else some ((jsSplit ',' s).map jsTrim)

/-- Embeds `getTrackedFiles` (src/push.js): splits the raw `git ls-files`
output on newlines and keeps the lines that are non-blank
(`f.trim()` truthy) and do not start with `.git`; when the subprocess fails
(`none`) it returns `[]`. -/
def getTrackedFiles (lsOut : Option String) : List String :=
  match lsOut with
  | none => []
  | some out =>
    (jsSplit '\n' out).filter (fun f => jsTrim f != "" && !(jsStartsWith f ".git"))

/-- The explicit options `parseArgs` produces, after environment defaulting:
`branch`, `repo`, `token` and `files` may be null, `message` defaults to
`"Update"`, `create` to `true`. -/
structure Options where
  branch : Option String
  repo : Option String
  token : Option String
  files : Option (List String)
  message : String
  create : Bool
  dryRun : Bool
  help : Bool

/-- Read-only local git metadata the script queries: the current branch name
(`getGitBranch`, already including its `main` fallback), the `owner/repo`
parsed from the origin remote URL (`getGitRepo`, `none` when unparseable),
and the raw `git ls-files` output (`none` when the subprocess fails). -/
structure GitEnv where
  currentBranch : String
  originRepo : Option String
  lsFiles : Option String

/-- The branch the run uses: `options.branch || getGitBranch()`. -/
def resolvedBranch (opts : Options) (git : GitEnv) : String :=
  jsOrStr opts.branch git.currentBranch

/-- The repository identifier the run uses: `options.repo || getGitRepo()`,
still possibly null/falsy. -/
def resolvedRepoOpt (opts : Options) (git : GitEnv) : Option String :=
  jsOr opts.repo git.originRepo

/-- The repository string used in request URLs once validation passed. -/
def resolvedRepo (opts : Options) (git : GitEnv) : String :=
  (resolvedRepoOpt opts git).getD ""

/-- The resolved file list: `options.files || getTrackedFiles()` (a JavaScript
array is always truthy, so an explicit override always wins). -/
def resolvedFiles (opts : Options) (git : GitEnv) : List String :=
  match opts.files with
  | some l => l
  | none => getTrackedFiles git.lsFiles

/-- Body of a `PUT /repos/:repo/contents/:file` request as the script builds
it: commit message `"<prefix> <file>"`, target branch, the file bytes (the
base64 encoding is abstracted away), and the `sha` field which is set exactly
when `existing.sha` was truthy. -/
structure PutBody where
  message : String
  branch : String
  content : List Nat
  sha : Option String
deriving DecidableEq

/-- A network request issued by the script, with the data it carried. -/
inductive NetCall where
  | getRef (repo branch : String) : NetCall
  | createRef (repo ref sha : String) : NetCall
  | getContents (repo file branch : String) : NetCall
  | putContents (repo file : String) (body : PutBody) : NetCall
deriving DecidableEq

/-- Response shape of `GET /repos/:repo/git/refs/heads/:branch`: the script
reads `.message` (comparing it to `"Not Found"`) and `.object?.sha`. -/
structure RefResp where
  message : Option String
  objectSha : Option String

/-- Response shape of `POST /repos/:repo/git/refs`: the script reads `.ref`
to decide success. -/
structure CreateResp where
  ref : Option String

/-- Behaviour of the two per-file calls, as seen by the script's `try` block:
either the contents GET throws a transport exception, or it returns a JSON
with an optional `sha` and then the PUT throws, or both return, the PUT's
JSON having (`true`) or lacking (`false`) a `.content` field. -/
inductive FileApi where
  | getThrows : FileApi
  | putThrows (getSha : Option String) : FileApi
  | ok (getSha : Option String) (putHasContent : Bool) : FileApi
deriving DecidableEq

/-- The remote endpoint oracle: the ref response per branch name, the
create-ref response, and the per-file contents behaviour. -/
structure Remote where
  refResp : String → RefResp
  createResp : CreateResp
  fileApi : String → FileApi

/-- Per-file outcome, as counted by the three counters. -/
inductive Outcome where
  | uploaded : Outcome
  | failed : Outcome
  | skipped : Outcome
deriving DecidableEq

/-- The PUT body the script builds for `file`: `body.sha` is set iff
`existing.sha` was truthy (`if (existing.sha) body.sha = existing.sha`). -/
def mkPutBody (message file branch : String) (content : List Nat)
    (existingSha : Option String) : PutBody :=
  { message := message ++ " " ++ file
    branch := branch
    content := content
    sha := if jsTruthy existingSha then existingSha else none }

/-- One iteration of the upload loop for a single file: skip paths that are
absent or directories without any network traffic; otherwise GET the remote
contents, build the PUT body (carrying `existing.sha` only when truthy), PUT,
and classify the result; a transport exception anywhere in the `try` block
yields `failed`. Returns the outcome and the requests issued for this file. -/
def processFile (fsEnv : String → FsEntry) (remote : Remote)
    (repo branch message file : String) : Outcome × List NetCall :=
  match fsEnv file with
  | .absent => (.skipped, [])
  | .dir => (.skipped, [])
  | .file content =>
    match remote.fileApi file with
    | .getThrows => (.failed, [.getContents repo file branch])
    | .putThrows getSha =>
        (.failed,
         [.getContents repo file branch,
          .putContents repo file (mkPutBody message file branch content getSha)])
    | .ok getSha putHasContent =>
        ((if putHasContent then .uploaded else .failed),
         [.getContents repo file branch,
          .putContents repo file (mkPutBody message file branch content getSha)])

/-- Accumulated result of the upload loop: the three counters (`success`,
`failed`, `skipped` in the source), the per-file outcomes in order, and the
concatenated request trace. -/
structure PhaseResult where
  success : Nat
  failed : Nat
  skipped : Nat
  outcomes : List (String × Outcome)
  trace : List NetCall
deriving DecidableEq

/-- The upload loop: each file of the resolved set is processed independently
and sequentially; no outcome ever stops the loop. -/
def uploadPhase (fsEnv : String → FsEntry) (remote : Remote)
    (repo branch message : String) : List String → PhaseResult
  | [] => ⟨0, 0, 0, [], []⟩
  | f :: rest =>
    let p := processFile fsEnv remote repo branch message f
    let r := uploadPhase fsEnv remote repo branch message rest
    ⟨(if p.1 = Outcome.uploaded then 1 else 0) + r.success,
     (if p.1 = Outcome.failed then 1 else 0) + r.failed,
     (if p.1 = Outcome.skipped then 1 else 0) + r.skipped,
     (f, p.1) :: r.outcomes,
     p.2 ++ r.trace⟩

/-- Terminal state of a run: `exited code trace` for a `process.exit(code)`
(or the top-level catch), `completed` for a run that finished the upload loop
and printed the summary; both record the full request trace. -/
inductive RunResult where
  | exited (code : Nat) (trace : List NetCall) : RunResult
  | completed (success failed skipped : Nat)
      (outcomes : List (String × Outcome)) (trace : List NetCall) : RunResult
deriving DecidableEq

/-- The request trace of a terminal state. -/
def RunResult.trace : RunResult → List NetCall
  | .exited _ t => t
  | .completed _ _ _ _ t => t

/-- Embeds `main` (src/push.js): help short-circuit, default resolution,
validation (token, repo, non-empty file list) each exiting 1 before any
request, dry-run exit 0 before any request, branch-ensure (with optional
creation from `main`), then the upload loop and the summary. -/
def mainRun (opts : Options) (git : GitEnv) (fsEnv : String → FsEntry)
    (remote : Remote) : RunResult :=
  if opts.help = true then .exited 0 []
  else
    let branch := resolvedBranch opts git
    let files := resolvedFiles opts git
    if jsTruthy opts.token = false then .exited 1 []
    else if jsTruthy (resolvedRepoOpt opts git) = false then .exited 1 []
    else if files.length = 0 then .exited 1 []
    else if opts.dryRun = true then .exited 0 []
    else
      let repo := resolvedRepo opts git
      let refR := remote.refResp branch
      if refR.message = some "Not Found" then
        if opts.create = false then .exited 1 [.getRef repo branch]
        else
          let mainR := remote.refResp "main"
          if jsTruthy mainR.objectSha = false then
            .exited 1 [.getRef repo branch, .getRef repo "main"]
          else
            let sha := mainR.objectSha.getD ""
            let pre := [NetCall.getRef repo branch, NetCall.getRef repo "main",
                        NetCall.createRef repo ("refs/heads/" ++ branch) sha]
            if jsTruthy remote.createResp.ref = false then .exited 1 pre
            else
              let r := uploadPhase fsEnv remote repo branch opts.message files
              .completed r.success r.failed r.skipped r.outcomes (pre ++ r.trace)
      else
        let r := uploadPhase fsEnv remote repo branch opts.message files
        .completed r.success r.failed r.skipped r.outcomes
          ([NetCall.getRef repo branch] ++ r.trace)

/-- Whether a request is the create-ref POST. -/
def isCreateRef : NetCall → Bool
  | .createRef _ _ _ => true
  | _ => false

/-- The exit status a terminal state carries: an explicit `process.exit`
code, or `0` when `main` runs to completion. -/
def RunResult.code : RunResult → Nat
  | .exited c _ => c
  | .completed _ _ _ _ _ => 0

/-- Amended file-override contract (C8): the override's comma-separated
entries in order, each trimmed of surrounding whitespace, empty entries
retained. -/
def overrideEntriesSpec (s : String) : List String := (jsSplit ',' s).map jsTrim

/-! ## Concrete fixtures used by witnesses and counterexamples -/

/-- A local disk with one regular file `a.txt` (bytes "hi"), one directory
`sub`, and nothing else. -/
def fsDemo : String → FsEntry := fun s =>
  if s = "a.txt" then FsEntry.file [104, 105]
  else if s = "sub" then FsEntry.dir
  else FsEntry.absent

/-- Local git metadata: current branch `feature`, origin `octo/repo`. -/
def gitDemo : GitEnv :=
  { currentBranch := "feature", originRepo := some "octo/repo",
    lsFiles := some "a.txt\nmissing.txt" }

/-- A remote where every branch exists, no file exists remotely, and every
PUT succeeds. -/
def remoteDemo : Remote :=
  { refResp := fun b =>
      if b = "main" then { message := none, objectSha := some "basesha" }
      else { message := none, objectSha := some "headsha" }
    createResp := { ref := some "refs/heads/feature" }
    fileApi := fun _ => FileApi.ok none true }

/-- A remote where every file already exists (sha `abc123`) and every PUT
returns a body without content metadata. -/
def remoteUpdateFail : Remote :=
  { refResp := fun _ => { message := none, objectSha := some "headsha" }
    createResp := { ref := some "refs/heads/feature" }
    fileApi := fun _ => FileApi.ok (some "abc123") false }

/-- A remote where every branch except `main` is reported "Not Found", and
`main` has commit sha `basesha`. -/
def remoteNoBranch : Remote :=
  { refResp := fun b =>
      if b = "main" then { message := none, objectSha := some "basesha" }
      else { message := some "Not Found", objectSha := none }
    createResp := { ref := some "refs/heads/feature" }
    fileApi := fun _ => FileApi.ok none true }

/-- Fully explicit options: branch `feature`, repo `octo/repo`, a token, two
files, defaults otherwise. -/
def optsDemo : Options :=
  { branch := some "feature", repo := some "octo/repo", token := some "tok",
    files := some ["a.txt", "missing.txt"], message := "Update", create := true,
    dryRun := false, help := false }

/-- Options with dry-run enabled but no resolvable token. -/
def optsNoToken : Options :=
  { branch := some "feature", repo := some "octo/repo", token := none,
    files := some ["a.txt"], message := "Update", create := true,
    dryRun := true, help := false }

/-- Options with no resolvable token and dry-run disabled. -/
def optsMissingToken : Options :=
  { branch := some "feature", repo := some "octo/repo", token := none,
    files := some ["a.txt"], message := "Update", create := true,
    dryRun := false, help := false }

/-- Valid options with dry-run enabled. -/
def optsDryRun : Options :=
  { branch := some "feature", repo := some "octo/repo", token := some "tok",
    files := some ["a.txt"], message := "Update", create := true,
    dryRun := true, help := false }

/-- Valid options with branch creation disabled. -/
def optsNoCreate : Options :=
  { branch := some "feature", repo := some "octo/repo", token := some "tok",
    files := some ["a.txt", "missing.txt"], message := "Update", create := false,
    dryRun := false, help := false }

/-- Valid options whose file list is the parsed override "a, ,b". -/
def optsOverride : Options :=
  { branch := some "feature", repo := some "octo/repo", token := some "tok",
    files := parseFilesOpt (some "a, ,b"), message := "Update", create := true,
    dryRun := false, help := false }

/-! ## Helper lemmas about the upload loop -/

theorem uploadPhase_outcomes_length (fsEnv : String → FsEntry) (remote : Remote)
    (repo branch message : String) (files : List String) :
    (uploadPhase fsEnv remote repo branch message files).outcomes.length = files.length := by
  induction files with
  | nil => rfl
  | cons f rest ih => simp [uploadPhase, ih]

theorem uploadPhase_sum (fsEnv : String → FsEntry) (remote : Remote)
    (repo branch message : String) (files : List String) :
    (uploadPhase fsEnv remote repo branch message files).success +
      (uploadPhase fsEnv remote repo branch message files).failed +
      (uploadPhase fsEnv remote repo branch message files).skipped = files.length := by
  induction files with
  | nil => rfl
  | cons f rest ih =>
    cases h : (processFile fsEnv remote repo branch message f).1 <;>
      simp [uploadPhase, h] <;> omega

theorem processFile_no_createRef (fsEnv : String → FsEntry) (remote : Remote)
    (repo branch message file : String) :
    ((processFile fsEnv remote repo branch message file).2).filter isCreateRef = [] := by
  unfold processFile
  cases fsEnv file with
  | absent => rfl
  | dir => rfl
  | file content =>
    cases remote.fileApi file with
    | getThrows => rfl
    | putThrows s => rfl
    | ok s b => rfl

theorem uploadPhase_no_createRef (fsEnv : String → FsEntry) (remote : Remote)
    (repo branch message : String) (files : List String) :
    ((uploadPhase fsEnv remote repo branch message files).trace).filter isCreateRef = [] := by
  induction files with
  | nil => rfl
  | cons f rest ih =>
    simp [uploadPhase, List.filter_append, ih, processFile_no_createRef]

/-! ## Claims -/

/-- C1: a resolved path that exists locally as a regular file and for which
the remote contents query returns no sha is PUT with no `sha` field in the
request body (a pure create); when the PUT response carries content metadata
the outcome is Uploaded and the uploaded counter is incremented by one for
that file. -/
theorem absent_remote_upload_create (fsEnv : String → FsEntry) (remote : Remote)
    (repo branch message file : String) (content : List Nat) (putHasContent : Bool)
    (rest : List String)
    (hfs : fsEnv file = FsEntry.file content)
    (hapi : remote.fileApi file = FileApi.ok none putHasContent) :
    (processFile fsEnv remote repo branch message file).2 =
      [NetCall.getContents repo file branch,
       NetCall.putContents repo file
         { message := message ++ " " ++ file, branch := branch,
           content := content, sha := none }] ∧
    (putHasContent = true →
      (processFile fsEnv remote repo branch message file).1 = Outcome.uploaded ∧
      (uploadPhase fsEnv remote repo branch message (file :: rest)).success =
        (uploadPhase fsEnv remote repo branch message rest).success + 1) := by
  constructor
  · simp [processFile, hfs, hapi, mkPutBody, jsTruthy]
  · intro hpc
    subst hpc
    have h1 : (processFile fsEnv remote repo branch message file).1 = Outcome.uploaded := by
      simp [processFile, hfs, hapi]
    exact ⟨h1, by simp [uploadPhase, h1, Nat.one_add]⟩

/-- C1 witness: the concrete file `a.txt` exists locally, is absent
remotely, and its PUT succeeds: the body carries no sha and the outcome is
Uploaded. -/
theorem absent_remote_upload_create_witness :
    fsDemo "a.txt" = FsEntry.file [104, 105] ∧
    remoteDemo.fileApi "a.txt" = FileApi.ok none true ∧
    ((processFile fsDemo remoteDemo "octo/repo" "feature" "Update" "a.txt").2 =
      [NetCall.getContents "octo/repo" "a.txt" "feature",
       NetCall.putContents "octo/repo" "a.txt"
         { message := "Update" ++ " " ++ "a.txt", branch := "feature",
           content := [104, 105], sha := none }] ∧
    (true = true →
      (processFile fsDemo remoteDemo "octo/repo" "feature" "Update" "a.txt").1 =
        Outcome.uploaded ∧
      (uploadPhase fsDemo remoteDemo "octo/repo" "feature" "Update"
          ["a.txt", "missing.txt"]).success =
        (uploadPhase fsDemo remoteDemo "octo/repo" "feature" "Update"
          ["missing.txt"]).success + 1)) :=
  ⟨by decide, by decide,
   absent_remote_upload_create fsDemo remoteDemo "octo/repo" "feature" "Update" "a.txt"
     [104, 105] true ["missing.txt"] (by decide) (by decide)⟩

/-- C2: a resolved path that exists locally as a regular file and for which
the remote contents query returns a (non-empty) sha is PUT with exactly that
sha in the request body; a PUT response lacking content metadata, a transport
exception at the GET, or one at the PUT each record outcome Failed
(incrementing the failed counter by one) and the loop still records an
outcome for every file of the set — the per-file phase never aborts. -/
theorem present_remote_update_and_failed (fsEnv : String → FsEntry) (remote : Remote)
    (repo branch message file : String) (content : List Nat) (h : String)
    (putHasContent : Bool) (rest : List String)
    (hfs : fsEnv file = FsEntry.file content)
    (hh : h ≠ "") :
    (remote.fileApi file = FileApi.ok (some h) putHasContent →
      (processFile fsEnv remote repo branch message file).2 =
        [NetCall.getContents repo file branch,
         NetCall.putContents repo file
           { message := message ++ " " ++ file, branch := branch,
             content := content, sha := some h }]) ∧
    (remote.fileApi file = FileApi.putThrows (some h) →
      (processFile fsEnv remote repo branch message file).2 =
        [NetCall.getContents repo file branch,
         NetCall.putContents repo file
           { message := message ++ " " ++ file, branch := branch,
             content := content, sha := some h }]) ∧
    ((remote.fileApi file = FileApi.ok (some h) false ∨
      remote.fileApi file = FileApi.getThrows ∨
      remote.fileApi file = FileApi.putThrows (some h)) →
      (processFile fsEnv remote repo branch message file).1 = Outcome.failed ∧
      (uploadPhase fsEnv remote repo branch message (file :: rest)).failed =
        (uploadPhase fsEnv remote repo branch message rest).failed + 1 ∧
      (uploadPhase fsEnv remote repo branch message (file :: rest)).outcomes =
        (file, Outcome.failed) ::
          (uploadPhase fsEnv remote repo branch message rest).outcomes) ∧
    (uploadPhase fsEnv remote repo branch message (file :: rest)).outcomes.length =
      rest.length + 1 := by
  have hsha : (if jsTruthy (some h) then some h else none) = some h := by
    simp [jsTruthy, hh]
  refine ⟨?_, ?_, ?_, ?_⟩
  · intro ha; simp [processFile, hfs, ha, mkPutBody, hsha]
  · intro ha; simp [processFile, hfs, ha, mkPutBody, hsha]
  · intro ha
    have hp : (processFile fsEnv remote repo branch message file).1 = Outcome.failed := by
      rcases ha with ha | ha | ha <;> simp [processFile, hfs, ha]
    exact ⟨hp, by simp [uploadPhase, hp, Nat.one_add], by simp [uploadPhase, hp]⟩
  · simpa using uploadPhase_outcomes_length fsEnv remote repo branch message (file :: rest)

/-- C2 witness: the concrete file `a.txt` exists locally and remotely with
sha `abc123`; the PUT response lacks content metadata, so the body carries
that sha and the outcome is Failed while the loop continues. -/
theorem present_remote_update_and_failed_witness :
    fsDemo "a.txt" = FsEntry.file [104, 105] ∧ ("abc123" : String) ≠ "" ∧
    ((remoteUpdateFail.fileApi "a.txt" = FileApi.ok (some "abc123") false →
      (processFile fsDemo remoteUpdateFail "octo/repo" "feature" "Update" "a.txt").2 =
        [NetCall.getContents "octo/repo" "a.txt" "feature",
         NetCall.putContents "octo/repo" "a.txt"
           { message := "Update" ++ " " ++ "a.txt", branch := "feature",
             content := [104, 105], sha := some "abc123" }]) ∧
    (remoteUpdateFail.fileApi "a.txt" = FileApi.putThrows (some "abc123") →
      (processFile fsDemo remoteUpdateFail "octo/repo" "feature" "Update" "a.txt").2 =
        [NetCall.getContents "octo/repo" "a.txt" "feature",
         NetCall.putContents "octo/repo" "a.txt"
           { message := "Update" ++ " " ++ "a.txt", branch := "feature",
             content := [104, 105], sha := some "abc123" }]) ∧
    ((remoteUpdateFail.fileApi "a.txt" = FileApi.ok (some "abc123") false ∨
      remoteUpdateFail.fileApi "a.txt" = FileApi.getThrows ∨
      remoteUpdateFail.fileApi "a.txt" = FileApi.putThrows (some "abc123")) →
      (processFile fsDemo remoteUpdateFail "octo/repo" "feature" "Update" "a.txt").1 =
        Outcome.failed ∧
      (uploadPhase fsDemo remoteUpdateFail "octo/repo" "feature" "Update"
          ["a.txt", "missing.txt"]).failed =
        (uploadPhase fsDemo remoteUpdateFail "octo/repo" "feature" "Update"
          ["missing.txt"]).failed + 1 ∧
      (uploadPhase fsDemo remoteUpdateFail "octo/repo" "feature" "Update"
          ["a.txt", "missing.txt"]).outcomes =
        ("a.txt", Outcome.failed) ::
          (uploadPhase fsDemo remoteUpdateFail "octo/repo" "feature" "Update"
            ["missing.txt"]).outcomes) ∧
    (uploadPhase fsDemo remoteUpdateFail "octo/repo" "feature" "Update"
        ["a.txt", "missing.txt"]).outcomes.length = ["missing.txt"].length + 1) :=
  ⟨by decide, by decide,
   present_remote_update_and_failed fsDemo remoteUpdateFail "octo/repo" "feature" "Update"
     "a.txt" [104, 105] "abc123" false ["missing.txt"] (by decide) (by decide)⟩

/-- C3: a resolved path that is absent on disk or is a directory is recorded
as Skipped (only the skipped counter is incremented), triggers no network
call for that path, and the loop continues unchanged on the remaining files
— never fatal. -/
theorem missing_local_skipped (fsEnv : String → FsEntry) (remote : Remote)
    (repo branch message file : String) (rest : List String)
    (h : fsEnv file = FsEntry.absent ∨ fsEnv file = FsEntry.dir) :
    processFile fsEnv remote repo branch message file = (Outcome.skipped, []) ∧
    uploadPhase fsEnv remote repo branch message (file :: rest) =
      { success := (uploadPhase fsEnv remote repo branch message rest).success
        failed := (uploadPhase fsEnv remote repo branch message rest).failed
        skipped := (uploadPhase fsEnv remote repo branch message rest).skipped + 1
        outcomes := (file, Outcome.skipped) ::
          (uploadPhase fsEnv remote repo branch message rest).outcomes
        trace := (uploadPhase fsEnv remote repo branch message rest).trace } := by
  have hp : processFile fsEnv remote repo branch message file = (Outcome.skipped, []) := by
    rcases h with h | h <;> simp [processFile, h]
  refine ⟨hp, ?_⟩
  simp [uploadPhase, hp, Nat.one_add]

/-- C3 witness: the concrete path `missing.txt` is absent on disk and is
skipped with no network traffic. -/
theorem missing_local_skipped_witness :
    (fsDemo "missing.txt" = FsEntry.absent ∨ fsDemo "missing.txt" = FsEntry.dir) ∧
    (processFile fsDemo remoteDemo "octo/repo" "feature" "Update" "missing.txt" =
      (Outcome.skipped, []) ∧
    uploadPhase fsDemo remoteDemo "octo/repo" "feature" "Update" ["missing.txt"] =
      { success := (uploadPhase fsDemo remoteDemo "octo/repo" "feature" "Update" []).success
        failed := (uploadPhase fsDemo remoteDemo "octo/repo" "feature" "Update" []).failed
        skipped :=
          (uploadPhase fsDemo remoteDemo "octo/repo" "feature" "Update" []).skipped + 1
        outcomes := ("missing.txt", Outcome.skipped) ::
          (uploadPhase fsDemo remoteDemo "octo/repo" "feature" "Update" []).outcomes
        trace := (uploadPhase fsDemo remoteDemo "octo/repo" "feature" "Update" []).trace }) :=
  ⟨Or.inl (by decide),
   missing_local_skipped fsDemo remoteDemo "octo/repo" "feature" "Update" "missing.txt" []
     (Or.inl (by decide))⟩

/-- C4 counterexample: with dry-run enabled and a non-empty resolved file
set but no resolvable token, the run exits 1, not 0 (validation runs before
the dry-run short-circuit), refuting the claim as frozen. -/
theorem dry_run_exit_cex :
    optsNoToken.dryRun = true ∧
    (resolvedFiles optsNoToken gitDemo).length = 1 ∧
    mainRun optsNoToken gitDemo fsDemo remoteDemo = RunResult.exited 1 [] ∧
    (mainRun optsNoToken gitDemo fsDemo remoteDemo).code ≠ 0 := by decide

/-- C4 (amended): with dry-run enabled, a non-empty resolved file set, and a
resolvable token and repository, the run performs zero network calls and
exits 0. -/
theorem dry_run_no_network (opts : Options) (git : GitEnv) (fsEnv : String → FsEntry)
    (remote : Remote)
    (hdry : opts.dryRun = true)
    (hne : (resolvedFiles opts git).length ≠ 0)
    (htok : jsTruthy opts.token = true)
    (hrepo : jsTruthy (resolvedRepoOpt opts git) = true) :
    mainRun opts git fsEnv remote = RunResult.exited 0 [] := by
  by_cases hh : opts.help = true
  · simp [mainRun, hh]
  · simp [mainRun, hh, hdry, hne, htok, hrepo]

/-- C4 witness: a concrete valid dry-run configuration makes no request and
exits 0. -/
theorem dry_run_no_network_witness :
    optsDryRun.dryRun = true ∧
    (resolvedFiles optsDryRun gitDemo).length ≠ 0 ∧
    jsTruthy optsDryRun.token = true ∧
    jsTruthy (resolvedRepoOpt optsDryRun gitDemo) = true ∧
    mainRun optsDryRun gitDemo fsDemo remoteDemo = RunResult.exited 0 [] :=
  ⟨by decide, by decide, by decide, by decide,
   dry_run_no_network optsDryRun gitDemo fsDemo remoteDemo (by decide) (by decide)
     (by decide) (by decide)⟩

/-- C5: in every run that proceeds to configuration resolution (help not
requested — the help path prints usage and exits 0 before any configuration
is resolved, and the spec's Configuration record carries no help flag), an
unresolvable token, an unresolvable repository, or an empty resolved file
list terminates the run with exit code 1 before any network call is made. -/
theorem config_validation_exit (opts : Options) (git : GitEnv) (fsEnv : String → FsEntry)
    (remote : Remote)
    (hhelp : opts.help = false)
    (hbad : jsTruthy opts.token = false ∨ jsTruthy (resolvedRepoOpt opts git) = false ∨
      (resolvedFiles opts git).length = 0) :
    mainRun opts git fsEnv remote = RunResult.exited 1 [] := by
  rcases hbad with h | h | h
  · simp [mainRun, hhelp, h]
  · by_cases ht : jsTruthy opts.token = true <;> simp [mainRun, hhelp, h, ht]
  · by_cases ht : jsTruthy opts.token = true <;>
      by_cases hr : jsTruthy (resolvedRepoOpt opts git) = true <;>
        simp [mainRun, hhelp, h, ht, hr]

/-- C5 witness: a concrete configuration with no resolvable token exits 1
with an empty request trace. -/
theorem config_validation_exit_witness :
    optsMissingToken.help = false ∧
    (jsTruthy optsMissingToken.token = false ∨
      jsTruthy (resolvedRepoOpt optsMissingToken gitDemo) = false ∨
      (resolvedFiles optsMissingToken gitDemo).length = 0) ∧
    mainRun optsMissingToken gitDemo fsDemo remoteDemo = RunResult.exited 1 [] :=
  ⟨by decide, Or.inl (by decide),
   config_validation_exit optsMissingToken gitDemo fsDemo remoteDemo (by decide)
     (Or.inl (by decide))⟩

/-- C6: when the run reaches the branch-ensure phase (validation passed, no
dry-run), the target-branch ref query reports "Not Found", and creation is
disabled, the run exits 1 having made only that single ref query — no
file-upload request is ever attempted. -/
theorem branch_absent_no_create_fatal (opts : Options) (git : GitEnv)
    (fsEnv : String → FsEntry) (remote : Remote)
    (hhelp : opts.help = false) (hdry : opts.dryRun = false)
    (htok : jsTruthy opts.token = true)
    (hrepo : jsTruthy (resolvedRepoOpt opts git) = true)
    (hne : (resolvedFiles opts git).length ≠ 0)
    (habsent : (remote.refResp (resolvedBranch opts git)).message = some "Not Found")
    (hnc : opts.create = false) :
    mainRun opts git fsEnv remote =
      RunResult.exited 1
        [NetCall.getRef (resolvedRepo opts git) (resolvedBranch opts git)] := by
  simp [mainRun, hhelp, hdry, htok, hrepo, hne, habsent, hnc]

/-- C6 witness: a concrete run against a remote whose target branch is
missing, with creation disabled, exits 1 after the single ref query. -/
theorem branch_absent_no_create_fatal_witness :
    (remoteNoBranch.refResp (resolvedBranch optsNoCreate gitDemo)).message =
      some "Not Found" ∧
    optsNoCreate.create = false ∧
    mainRun optsNoCreate gitDemo fsDemo remoteNoBranch =
      RunResult.exited 1
        [NetCall.getRef (resolvedRepo optsNoCreate gitDemo)
          (resolvedBranch optsNoCreate gitDemo)] :=
  ⟨by decide, by decide,
   branch_absent_no_create_fatal optsNoCreate gitDemo fsDemo remoteNoBranch (by decide)
     (by decide) (by decide) (by decide) (by decide) (by decide) (by decide)⟩

/-- C7: when the run reaches the branch-ensure phase, the target-branch ref
query reports "Not Found", and creation is enabled: if the base branch
(`main`) lookup yields no commit sha (missing or empty, i.e. falsy), the run
exits 1 after only the two ref queries and no create-ref call is made;
otherwise the run's full request trace contains exactly one create-ref call,
and it references the base branch's commit sha. -/
theorem branch_absent_create_ref (opts : Options) (git : GitEnv)
    (fsEnv : String → FsEntry) (remote : Remote)
    (hhelp : opts.help = false) (hdry : opts.dryRun = false)
    (htok : jsTruthy opts.token = true)
    (hrepo : jsTruthy (resolvedRepoOpt opts git) = true)
    (hne : (resolvedFiles opts git).length ≠ 0)
    (habsent : (remote.refResp (resolvedBranch opts git)).message = some "Not Found")
    (hc : opts.create = true) :
    (jsTruthy (remote.refResp "main").objectSha = false →
      mainRun opts git fsEnv remote =
        RunResult.exited 1
          [NetCall.getRef (resolvedRepo opts git) (resolvedBranch opts git),
           NetCall.getRef (resolvedRepo opts git) "main"]) ∧
    (∀ sha : String, (remote.refResp "main").objectSha = some sha → sha ≠ "" →
      ((mainRun opts git fsEnv remote).trace).filter isCreateRef =
        [NetCall.createRef (resolvedRepo opts git)
          ("refs/heads/" ++ resolvedBranch opts git) sha]) := by
  constructor
  · intro h0
    simp [mainRun, hhelp, hdry, htok, hrepo, hne, habsent, hc, h0]
  · intro sha hsha hne2
    have htr : jsTruthy (remote.refResp "main").objectSha = true := by
      simp [jsTruthy, hsha, hne2]
    have hms : jsTruthy (some sha) = true := by simp [jsTruthy, hne2]
    by_cases hcr : jsTruthy remote.createResp.ref = true
    · simp [mainRun, hhelp, hdry, htok, hrepo, hne, habsent, hc, htr, hcr, hsha, hms,
        RunResult.trace, List.filter_append, isCreateRef, uploadPhase_no_createRef]
    · simp [mainRun, hhelp, hdry, htok, hrepo, hne, habsent, hc, htr, hcr, hsha, hms,
        RunResult.trace, isCreateRef]

/-- C7 witness: against a concrete remote whose target branch is missing and
whose `main` points at `basesha`, the create-enabled run makes exactly one
create-ref call, referencing `basesha`. -/
theorem branch_absent_create_ref_witness :
    (remoteNoBranch.refResp (resolvedBranch optsDemo gitDemo)).message =
      some "Not Found" ∧
    optsDemo.create = true ∧
    ((jsTruthy (remoteNoBranch.refResp "main").objectSha = false →
      mainRun optsDemo gitDemo fsDemo remoteNoBranch =
        RunResult.exited 1
          [NetCall.getRef (resolvedRepo optsDemo gitDemo)
            (resolvedBranch optsDemo gitDemo),
           NetCall.getRef (resolvedRepo optsDemo gitDemo) "main"]) ∧
    (∀ sha : String, (remoteNoBranch.refResp "main").objectSha = some sha → sha ≠ "" →
      ((mainRun optsDemo gitDemo fsDemo remoteNoBranch).trace).filter isCreateRef =
        [NetCall.createRef (resolvedRepo optsDemo gitDemo)
          ("refs/heads/" ++ resolvedBranch optsDemo gitDemo) sha])) :=
  ⟨by decide, by decide,
   branch_absent_create_ref optsDemo gitDemo fsDemo remoteNoBranch (by decide) (by decide)
     (by decide) (by decide) (by decide) (by decide) (by decide)⟩

/-- C8 counterexample: the override "a, ,b" resolves to ["a", "", "b"] — the
blank entry is trimmed to the empty string but not removed, so the resolved
list is not ["a", "b"] as the claim requires. -/
theorem files_override_keeps_empty_cex :
    parseFilesOpt (some "a, ,b") = some ["a", "", "b"] ∧
    "" ∈ ["a", "", "b"] ∧
    parseFilesOpt (some "a, ,b") ≠ some ["a", "b"] := by decide

/-- C8 (amended): a truthy --files override resolves, through the main
file-set resolution, to exactly its comma-separated entries in order, each
trimmed of surrounding whitespace, with empty entries retained. -/
theorem files_override_trimmed (s : String) (opts : Options) (git : GitEnv)
    (hs : s ≠ "")
    (hov : opts.files = parseFilesOpt (some s)) :
    resolvedFiles opts git = overrideEntriesSpec s := by
  simp [resolvedFiles, hov, parseFilesOpt, hs, overrideEntriesSpec]

/-- C8 witness: the concrete override "a, ,b" resolves to its trimmed
entries. -/
theorem files_override_trimmed_witness :
    ("a, ,b" : String) ≠ "" ∧
    optsOverride.files = parseFilesOpt (some "a, ,b") ∧
    resolvedFiles optsOverride gitDemo = overrideEntriesSpec "a, ,b" :=
  ⟨by decide, rfl,
   files_override_trimmed "a, ,b" optsOverride gitDemo (by decide) rfl⟩

/-- C9 counterexample: a tracked-file listing containing ".gitignore" — the
filter `!f.startsWith(".git")` excludes it even though it is not inside the
.git/ metadata directory, refuting the claim that only metadata-directory
entries are dropped. -/
theorem tracked_files_gitignore_cex :
    getTrackedFiles (some "src/app.js\n.gitignore") = ["src/app.js"] ∧
    ".gitignore" ∉ getTrackedFiles (some "src/app.js\n.gitignore") := by decide

/-- C9 (amended): the default resolved set consists of exactly the lines of
the `git ls-files` output that are non-blank and do not start with ".git" —
so every tracked path beginning with ".git" (for example ".gitignore"), not
only the metadata directory, is excluded. -/
theorem tracked_files_filter (out f : String) :
    f ∈ getTrackedFiles (some out) ↔
      f ∈ jsSplit '\n' out ∧ jsTrim f ≠ "" ∧ jsStartsWith f ".git" = false := by
  simp [getTrackedFiles, List.mem_filter, Bool.and_eq_true, bne_iff_ne,
    Bool.not_eq_true', and_assoc]

/-- C10: in every run that reaches the upload phase and completes, each
resolved file receives exactly one outcome, so the three printed counters
sum to the size of the resolved file set. -/
theorem counters_sum_total (opts : Options) (git : GitEnv) (fsEnv : String → FsEntry)
    (remote : Remote) (u fl sk : Nat) (outs : List (String × Outcome))
    (tr : List NetCall)
    (h : mainRun opts git fsEnv remote = RunResult.completed u fl sk outs tr) :
    u + fl + sk = (resolvedFiles opts git).length := by
  simp only [mainRun] at h
  repeat' split at h
  all_goals
    first
      | (exact RunResult.noConfusion h)
      | (rw [RunResult.completed.injEq] at h
         obtain ⟨h1, h2, h3, h4, h5⟩ := h
         subst h1
         subst h2
         subst h3
         exact uploadPhase_sum fsEnv remote (resolvedRepo opts git)
           (resolvedBranch opts git) opts.message (resolvedFiles opts git))

/-- C10 witness: the concrete end-to-end run (one file uploads, one is
missing locally) completes with counters 1, 0, 1 over its two files. -/
theorem counters_sum_total_witness :
    mainRun optsDemo gitDemo fsDemo remoteDemo =
      RunResult.completed 1 0 1
        [("a.txt", Outcome.uploaded), ("missing.txt", Outcome.skipped)]
        [NetCall.getRef "octo/repo" "feature",
         NetCall.getContents "octo/repo" "a.txt" "feature",
         NetCall.putContents "octo/repo" "a.txt"
           { message := "Update a.txt", branch := "feature",
             content := [104, 105], sha := none }] ∧
    1 + 0 + 1 = (resolvedFiles optsDemo gitDemo).length :=
  ⟨by decide,
   counters_sum_total optsDemo gitDemo fsDemo remoteDemo 1 0 1
     [("a.txt", Outcome.uploaded), ("missing.txt", Outcome.skipped)]
     [NetCall.getRef "octo/repo" "feature",
      NetCall.getContents "octo/repo" "a.txt" "feature",
      NetCall.putContents "octo/repo" "a.txt"
        { message := "Update a.txt", branch := "feature",
          content := [104, 105], sha := none }] (by decide)⟩
